import Mathlib

/-!
Verification development for the Polidle game engine (src/js/app.js).

The JavaScript game logic is embedded shallowly: the mutable module-level
variables become fields of an explicit `GameState`, every event handler
becomes a pure state-transition function, `localStorage` becomes an
`Option String` field, and `Math.random()`-driven shuffling takes an
injected random source `rand : (n : Nat) → Fin (n + 1)` modelling
`Math.floor(Math.random() * (n + 1))`.  JavaScript numbers that stay
integral are modelled by `Nat`/`Int`; the possibly-`NaN` best streak is
modelled by `Option Int` with `none` standing for `NaN`.  An event
handler that can throw a `TypeError` is modelled with `Except`, the
error value carrying the state at the moment of the throw.
-/

-- ==========================================================
-- Data model
-- ==========================================================

/-- One parliamentarian record, as consumed from the JSON datasets.
Absent string fields are modelled as the empty string (JavaScript
truthiness of a string is exactly non-emptiness). -/
structure PoliticianRecord where
  nom_complet : String
  type : String
  groupe_sigle : String
  groupe_nom : String
  photo : String
deriving DecidableEq, Repr

/-- A resolved party configuration: display name and CSS color. -/
structure PartyConfig where
  name : String
  color : String
deriving DecidableEq, Repr

/-- The reveal payload shown after a guess: correctness flag, the
candidate's full name, and the correct group's display string. -/
structure Reveal where
  correct : Bool
  name : String
  group : String
deriving DecidableEq, Repr

-- ==========================================================
-- Party color map  (sigle → { name, color })
-- ==========================================================

/-- The static party registry `PARTY_COLORS` from app.js, as an
association list keyed by sigle. -/
def PARTY_COLORS : List (String × PartyConfig) :=
  [ ("RN",      ⟨"Rassemblement National",                           "#0D378A"⟩),
    ("EPR",     ⟨"Ensemble pour la République",                      "#7B4FBE"⟩),
    ("LFI-NFP", ⟨"La France insoumise – NFP",                        "#CC2443"⟩),
    ("DR",      ⟨"Droite Républicaine",                              "#0077CC"⟩),
    ("Dem",     ⟨"Les Démocrates",                                   "#FF8C00"⟩),
    ("HOR",     ⟨"Horizons & Indépendants",                          "#00B4D8"⟩),
    ("SOC",     ⟨"Socialistes et apparentés",                        "#FF6B81"⟩),
    ("GDR",     ⟨"Gauche Démocrate et Républicaine",                 "#BB0000"⟩),
    ("LIOT",    ⟨"Libertés, Indépendants, Outre-mer et Territoires", "#D4A017"⟩),
    ("EcoS",    ⟨"Écologiste et Social",                             "#00A86B"⟩),
    ("UDR",     ⟨"Union des droites pour la République",             "#1B3A5C"⟩),
    ("NI",      ⟨"Non inscrit",                                      "#808080"⟩),
    ("LR",      ⟨"Les Républicains",                                 "#0066AA"⟩),
    ("SER",     ⟨"Socialiste, Écologiste et Républicain",            "#E05080"⟩),
    ("UC",      ⟨"Union Centriste",                                  "#00A0D2"⟩),
    ("RDPI",    ⟨"Rassemblement des démocrates, progressistes et indépendants", "#DAA520"⟩),
    ("CRCE-K",  ⟨"Communiste Républicain Citoyen Écologiste – Kanaky", "#C40000"⟩),
    ("RDSE",    ⟨"Rassemblement Démocratique et Social Européen",    "#E6A817"⟩),
    ("GEST",    ⟨"Écologiste – Solidarité et Territoires",           "#2ECC71"⟩),
    ("INDEP",   ⟨"Les Indépendants – République et Territoires",     "#8B6914"⟩) ]

-- ==========================================================
-- autoColor: deterministic color from a sigle
-- ==========================================================

/-- Wrap an integer to the signed 32-bit range, as JavaScript bitwise
operators do (`ToInt32`). -/
def toInt32 (n : Int) : Int :=
  let m := n % 4294967296
  if m < 2147483648 then m else m - 4294967296

/-- One step of the hash loop in `autoColor`:
`hash = str.charCodeAt(i) + ((hash << 5) - hash)`.  The shift is a
signed 32-bit operation, the rest is exact integer arithmetic. -/
def hashStep (h : Int) (c : Char) : Int :=
  (c.toNat : Int) + (toInt32 (h * 32) - h)

/-- The full hash accumulated over the character codes of a string. -/
def jsHash (s : String) : Int :=
  s.data.foldl hashStep 0

/-- JavaScript remainder `a % b` (for positive `b`): truncated division
remainder, taking the sign of the dividend. -/
def jsMod (a b : Int) : Int :=
  if a < 0 then -((-a) % b) else a % b

/-- The hue computed by `autoColor`: `Math.abs(hash % 360)`. -/
def autoHue (s : String) : Nat :=
  (jsMod (jsHash s) 360).natAbs

/-- `autoColor` from app.js: a deterministic hsl color generated from
the sigle string alone. -/
def autoColor (s : String) : String :=
  "hsl(" ++ toString (autoHue s) ++ ", 55%, 45%)"

/-- `getPartyConfig` from app.js: registry hit returns the entry
verbatim; otherwise the display name comes from the first pool record
with a matching sigle (its `groupe_nom`, when non-empty), falling back
to the sigle itself, and the color is auto-generated from the sigle. -/
def getPartyConfig (pool : List PoliticianRecord) (sigle : String) : PartyConfig :=
  match PARTY_COLORS.lookup sigle with
  | some cfg => cfg
  | none =>
    let found := pool.find? (fun p => p.groupe_sigle == sigle)
    let name :=
      match found with
      | some f => if f.groupe_nom ≠ "" then f.groupe_nom else sigle
      | none => sigle
    ⟨name, autoColor sigle⟩

-- ==========================================================
-- JS Set dedup and Array.prototype.sort
-- ==========================================================

/-- Insertion-order deduplication, as performed by `new Set(...)` in
`setMode`; `seen` accumulates the elements already kept. -/
def setDedupAux (seen : List String) : List String → List String
  | [] => []
  | x :: xs =>
    if x ∈ seen then setDedupAux seen xs
    else x :: setDedupAux (x :: seen) xs

/-- `[...new Set(l)]`: keep the first occurrence of each element. -/
def setDedup (l : List String) : List String :=
  setDedupAux [] l

/-- Lexicographic comparison of character-code sequences, as the
default `sort()` comparator performs on strings (code-unit by
code-unit numeric comparison). -/
def lexLe : List Char → List Char → Bool
  | [], _ => true
  | _ :: _, [] => false
  | x :: xs, y :: ys =>
    if x.toNat < y.toNat then true
    else if y.toNat < x.toNat then false
    else lexLe xs ys

/-- The string order used by `Array.prototype.sort()`. -/
def jsStrLe (a b : String) : Prop :=
  lexLe a.data b.data = true

instance jsStrLeDec : DecidableRel jsStrLe :=
  fun a b => inferInstanceAs (Decidable (lexLe a.data b.data = true))

/-- `Array.prototype.sort()` on an array of strings: a stable sort by
the lexicographic string order.  Any stable sorted permutation is
extensionally the JS result; we use insertion sort. -/
def jsSortStrings (l : List String) : List String :=
  List.insertionSort jsStrLe l

-- ==========================================================
-- Fisher–Yates shuffle with an injected random source
-- ==========================================================

/-- Swap the elements at positions `i` and `j`
(`[arr[i], arr[j]] = [arr[j], arr[i]]`); out-of-range positions never
arise from the random draws below. -/
def swapAt {α : Type} (l : List α) (i j : Nat) : List α :=
  match l[i]?, l[j]? with
  | some a, some b => (l.set i b).set j a
  | _, _ => l

/-- The loop of `shuffle`, counting `i` down from `arr.length - 1` to
`1`; at index `i` the partner `j = rand i` is drawn from `[0, i]`. -/
def fyLoop {α : Type} (rand : (n : Nat) → Fin (n + 1)) : List α → Nat → List α
  | l, 0 => l
  | l, i + 1 => fyLoop rand (swapAt l (i + 1) (rand (i + 1)).val) i

/-- `shuffle` from app.js, with `Math.floor(Math.random() * (i + 1))`
replaced by the injected draw `rand i : Fin (i + 1)`. -/
def shuffle {α : Type} (rand : (n : Nat) → Fin (n + 1)) (l : List α) : List α :=
  fyLoop rand l (l.length - 1)

-- ==========================================================
-- Game state
-- ==========================================================

/-- The module-level mutable state of app.js, plus the `localStorage`
slot (`storage`) and the most recent reveal payload (`lastReveal`,
`none` while the answer panel is hidden).  `bestStreak` is `Option Int`
with `none` modelling `NaN`. -/
structure GameState where
  deputes : List PoliticianRecord
  senateurs : List PoliticianRecord
  pool : List PoliticianRecord
  currentIndex : Nat
  score : Nat
  total : Nat
  streak : Nat
  bestStreak : Option Int
  mode : String
  answered : Bool
  parties : List String
  storage : Option String
  lastReveal : Option Reveal
deriving DecidableEq, Repr

/-- JavaScript `a > b` where `b` may be `NaN` (modelled `none`):
any comparison against `NaN` is false. -/
def jsGt (a : Int) (b : Option Int) : Bool :=
  match b with
  | some b => a > b
  | none => false

-- ==========================================================
-- Engine operations
-- ==========================================================

/-- `nextPolitician` from app.js: no-op on an empty pool; reshuffle and
reset the cursor when it has run past the end; then present the
candidate at the cursor with the answer panel hidden. -/
def nextPolitician (rand : (n : Nat) → Fin (n + 1)) (s : GameState) : GameState :=
  if s.pool.length = 0 then s
  else
    let pi :=
      if s.pool.length ≤ s.currentIndex then (shuffle rand s.pool, 0)
      else (s.pool, s.currentIndex)
    { s with pool := pi.1, currentIndex := pi.2, answered := false, lastReveal := none }

/-- `handleGuess` from app.js.  Returns `.error` carrying the state at
the throw point when `pool[currentIndex]` is `undefined` (the
subsequent property read throws a `TypeError`, after `answered` and
`total` were already mutated). -/
def handleGuess (g : String) (s : GameState) : Except GameState GameState :=
  if s.answered then .ok s
  else
    let s1 := { s with answered := true, total := s.total + 1 }
    match s1.pool[s1.currentIndex]? with
    | none => .error s1
    | some pol =>
      let isCorrect := g == pol.groupe_sigle
      let s2 :=
        if isCorrect then
          let newStreak := s1.streak + 1
          if jsGt (newStreak : Int) s1.bestStreak then
            { s1 with score := s1.score + 1, streak := newStreak,
                      bestStreak := some (newStreak : Int),
                      storage := some (toString newStreak) }
          else
            { s1 with score := s1.score + 1, streak := newStreak }
        else
          { s1 with streak := 0 }
      let cfg := getPartyConfig s2.pool pol.groupe_sigle
      .ok { s2 with
              lastReveal := some ⟨isCorrect, pol.nom_complet,
                                  cfg.name ++ " (" ++ pol.groupe_sigle ++ ")"⟩,
              currentIndex := s2.currentIndex + 1 }

/-- The `onerror` hook registered in `nextPolitician`: splice the
current candidate out of the pool, bail out if the pool became empty,
wrap the cursor if needed, and advance again. -/
def photoFail (rand : (n : Nat) → Fin (n + 1)) (s : GameState) : GameState :=
  let pool := s.pool.eraseIdx s.currentIndex
  if pool.length = 0 then { s with pool := pool }
  else
    let idx := if pool.length ≤ s.currentIndex then 0 else s.currentIndex
    nextPolitician rand { s with pool := pool, currentIndex := idx }

/-- The party list recomputation in `setMode`:
`[...new Set(pool.map((p) => p.groupe_sigle))].filter(Boolean).sort()`. -/
def partiesOf (l : List PoliticianRecord) : List String :=
  jsSortStrings ((setDedup (l.map (·.groupe_sigle))).filter (fun c => !(c == "")))

/-- `setMode` from app.js: rebuild the pool from the selected chamber
collection(s), recompute the sorted unique party list (dedup, drop
empty sigles, sort), shuffle, zero the counters, and advance to the
first candidate. -/
def setMode (newMode : String) (rand : (n : Nat) → Fin (n + 1)) (s : GameState) : GameState :=
  let basePool :=
    if newMode == "deputes" then s.deputes
    else if newMode == "senateurs" then s.senateurs
    else s.deputes ++ s.senateurs
  nextPolitician rand
    { s with mode := newMode, pool := shuffle rand basePool, parties := partiesOf basePool,
             currentIndex := 0, score := 0, total := 0, streak := 0 }

-- ==========================================================
-- Startup: data load and persisted best streak
-- ==========================================================

/-- Outcome of fetching one JSON dataset resource. -/
inductive FetchResult where
  | ok (records : List PoliticianRecord)
  | failed
deriving Repr

/-- The dataset-loading phase of `init`: on joint success each
collection is filtered to records with a non-empty photo; if either
fetch fails the combined attempt throws and each resource is refetched
individually, and that fallback path stores the raw, unfiltered
collection. -/
def loadData (dep sen : FetchResult) : List PoliticianRecord × List PoliticianRecord :=
  match dep, sen with
  | .ok d, .ok s => (d.filter (fun p => !(p.photo == "")), s.filter (fun p => !(p.photo == "")))
  | .ok d, .failed => (d, [])
  | .failed, .ok s => ([], s)
  | .failed, .failed => ([], [])

/-- Decimal value of a digit list, most significant first. -/
def digitsVal (ds : List Char) : Int :=
  ds.foldl (fun a c => a * 10 + ((c.toNat : Int) - 48)) 0

/-- Whitespace skipped by JavaScript `parseInt`. -/
def jsWhitespace (c : Char) : Bool :=
  c == ' ' || c == '\t' || c == '\n' || c == '\r'

/-- JavaScript `parseInt(s, 10)`: skip leading whitespace, read an
optional sign, then the longest digit prefix; `NaN` (modelled `none`)
when no digit is found. -/
def parseInt10 (s : String) : Option Int :=
  let cs := s.data.dropWhile jsWhitespace
  let sign : Int := if cs.head? = some '-' then -1 else 1
  let cs2 := if cs.head? = some '-' ∨ cs.head? = some '+' then cs.tail else cs
  let ds := cs2.takeWhile Char.isDigit
  if ds.isEmpty then none else some (sign * digitsVal ds)

/-- The startup read
`parseInt(localStorage.getItem("polidle-best") || "0", 10)`:
a missing (`null`) or empty stored value falls back to the literal
string "0" before parsing. -/
def readBest (stored : Option String) : Option Int :=
  let raw := match stored with
    | none => "0"
    | some v => if v == "" then "0" else v
  parseInt10 raw

/-- `init` from app.js after the fetches resolved: load and filter the
collections, stop with no session (`none`) when both are empty,
otherwise restore the persisted best streak and enter mode "both". -/
def initState (dep sen : FetchResult) (stored : Option String)
    (rand : (n : Nat) → Fin (n + 1)) : Option GameState :=
  let ds := loadData dep sen
  if ds.1.length = 0 ∧ ds.2.length = 0 then none
  else
    some (setMode "both" rand
      { deputes := ds.1, senateurs := ds.2, pool := [], currentIndex := 0,
        score := 0, total := 0, streak := 0, bestStreak := readBest stored,
        mode := "both", answered := false, parties := [], storage := stored,
        lastReveal := none })

-- ==========================================================
-- Trace semantics: one session lifetime as a list of events
-- ==========================================================

/-- One engine-level event: a guess, an explicit advance, a filter
change, or a photo-failure report.  Events that shuffle carry their
own random source. -/
inductive Op where
  | guess (g : String)
  | next (rand : (n : Nat) → Fin (n + 1))
  | mode (m : String) (rand : (n : Nat) → Fin (n + 1))
  | fail (rand : (n : Nat) → Fin (n + 1))

/-- Unwrap a guess outcome: a thrown `TypeError` propagates out of the
event handler, leaving the state as it was at the throw point. -/
def unwrapG (e : Except GameState GameState) : GameState :=
  match e with
  | .ok t => t
  | .error t => t

/-- Run one event against the session state. -/
def step (s : GameState) : Op → GameState
  | .guess g => unwrapG (handleGuess g s)
  | .next rand => nextPolitician rand s
  | .mode m rand => setMode m rand s
  | .fail rand => photoFail rand s

/-- Run a whole event trace. -/
def runOps (s : GameState) (ops : List Op) : GameState :=
  ops.foldl step s

/-- The values of `streak` observed after each event of a trace. -/
def observedStreaks (s : GameState) : List Op → List Nat
  | [] => []
  | op :: rest => (step s op).streak :: observedStreaks (step s op) rest

-- ==========================================================
-- Concrete fixtures used by witnesses and counterexamples
-- ==========================================================

/-- A trivial random source: always draw 0. -/
def idRand : (n : Nat) → Fin (n + 1) := fun n => ⟨0, Nat.succ_pos n⟩

/-- Fixture: a deputy in group SOC. -/
def recSOC : PoliticianRecord :=
  ⟨"Alice Martin", "depute", "SOC", "Socialistes et apparentés", "alice.jpg"⟩

/-- Fixture: a senator in group LR. -/
def recLR : PoliticianRecord :=
  ⟨"Bruno Petit", "senateur", "LR", "Les Républicains", "bruno.jpg"⟩

/-- Fixture: a deputy with a photo but an empty group sigle. -/
def recNoGroup : PoliticianRecord :=
  ⟨"Chloé Durand", "depute", "", "", "chloe.jpg"⟩

/-- Fixture: a session state presenting `recSOC`, not yet answered. -/
def stateSOC : GameState :=
  { deputes := [recSOC], senateurs := [recLR], pool := [recSOC, recLR],
    currentIndex := 0, score := 0, total := 0, streak := 0,
    bestStreak := some 0, mode := "both", answered := false,
    parties := ["LR", "SOC"], storage := none, lastReveal := none }

/-- Fixture: `stateSOC` after its current candidate was answered. -/
def stateAnswered : GameState :=
  { stateSOC with answered := true }

/-- Fixture: three deputies whose sigles read RN, EPR, RN. -/
def recRN1 : PoliticianRecord :=
  ⟨"Paul Noir", "depute", "RN", "Rassemblement National", "p1.jpg"⟩

/-- Fixture: the EPR deputy of the three-record scenario. -/
def recEPR : PoliticianRecord :=
  ⟨"Eva Blanc", "depute", "EPR", "Ensemble pour la République", "p2.jpg"⟩

/-- Fixture: the second RN deputy of the three-record scenario. -/
def recRN2 : PoliticianRecord :=
  ⟨"Rémi Vert", "depute", "RN", "Rassemblement National", "p3.jpg"⟩

/-- Fixture: a session whose pool would hold sigles RN, EPR, RN. -/
def stateScenario : GameState :=
  { deputes := [recRN1, recEPR, recRN2], senateurs := [], pool := [],
    currentIndex := 0, score := 0, total := 0, streak := 0,
    bestStreak := some 0, mode := "both", answered := false,
    parties := [], storage := none, lastReveal := none }

/-- The photo half of the spec's pool invariant, stated for all three
record collections of a session. -/
def photosOk (s : GameState) : Prop :=
  (∀ r ∈ s.deputes, r.photo ≠ "") ∧ (∀ r ∈ s.senateurs, r.photo ≠ "") ∧
    (∀ r ∈ s.pool, r.photo ≠ "")

-- ==========================================================
-- Helper lemmas: the shuffle is a permutation
-- ==========================================================

theorem swapAt_perm {α : Type} [DecidableEq α] (l : List α) (i j : Nat) :
    (swapAt l i j).Perm l := by
  rcases hi : l[i]? with _ | a
  · cases hj : l[j]? <;> simp [swapAt, hi, hj]
  · rcases hj : l[j]? with _ | b
    · simp [swapAt, hi, hj]
    · simp only [swapAt, hi, hj]
      obtain ⟨hi', hia⟩ := List.getElem?_eq_some.mp hi
      obtain ⟨hj', hjb⟩ := List.getElem?_eq_some.mp hj
      have hjl : j < (l.set i b).length := by simpa using hj'
      have hsb : (l.set i b).get ⟨j, hjl⟩ = b := by
        rw [List.get_eq_getElem]
        by_cases hij : i = j
        · subst hij; simp
        · rw [List.getElem_set_of_ne hij]; exact hjb
      rw [List.get_eq_getElem] at hsb
      rw [List.perm_iff_count]
      intro x
      have h1 := List.count_set a x (l.set i b) j hjl
      rw [hsb] at h1
      have h2 := List.count_set b x l i hi'
      rw [hia] at h2
      rw [h1, h2]
      have hmem : a ∈ l := hia ▸ List.getElem_mem hi'
      by_cases hax : a = x
      · have hc : 0 < List.count x l := List.count_pos_iff.mpr (hax ▸ hmem)
        by_cases hbx : b = x <;> simp [hax, hbx] <;> omega
      · by_cases hbx : b = x <;> simp [hax, hbx]

theorem fyLoop_perm {α : Type} [DecidableEq α] (rand : (n : Nat) → Fin (n + 1))
    (n : Nat) : ∀ l : List α, (fyLoop rand l n).Perm l := by
  induction n with
  | zero => intro l; exact .refl l
  | succ n ih =>
    intro l
    rw [fyLoop]
    exact (ih _).trans (swapAt_perm _ _ _)

theorem shuffle_perm {α : Type} [DecidableEq α] (rand : (n : Nat) → Fin (n + 1))
    (l : List α) : (shuffle rand l).Perm l :=
  fyLoop_perm rand (l.length - 1) l

theorem mem_shuffle {α : Type} [DecidableEq α] {rand : (n : Nat) → Fin (n + 1)}
    {l : List α} {x : α} : x ∈ shuffle rand l ↔ x ∈ l :=
  (shuffle_perm rand l).mem_iff

-- ==========================================================
-- Helper lemmas: dedup, filter, sort of the party list
-- ==========================================================

theorem mem_setDedupAux (x : String) :
    ∀ (l seen : List String), x ∈ setDedupAux seen l ↔ x ∈ l ∧ x ∉ seen := by
  intro l
  induction l with
  | nil => intro seen; simp [setDedupAux]
  | cons y ys ih =>
    intro seen
    by_cases hy : y ∈ seen
    · rw [setDedupAux, if_pos hy, ih seen]
      constructor
      · rintro ⟨h1, h2⟩; exact ⟨List.mem_cons_of_mem _ h1, h2⟩
      · rintro ⟨h1, h2⟩
        rcases List.mem_cons.mp h1 with rfl | h1
        · exact absurd hy h2
        · exact ⟨h1, h2⟩
    · rw [setDedupAux, if_neg hy]
      constructor
      · intro h
        rcases List.mem_cons.mp h with rfl | h
        · exact ⟨List.mem_cons_self _ _, hy⟩
        · obtain ⟨h1, h2⟩ := (ih (y :: seen)).mp h
          refine ⟨List.mem_cons_of_mem _ h1, fun hx => h2 (List.mem_cons_of_mem _ hx)⟩
      · rintro ⟨h1, h2⟩
        rcases List.mem_cons.mp h1 with rfl | h1
        · exact List.mem_cons_self _ _
        · by_cases hxy : x = y
          · subst hxy; exact List.mem_cons_self _ _
          · exact List.mem_cons_of_mem _ ((ih (y :: seen)).mpr
              ⟨h1, fun hx => (List.mem_cons.mp hx).elim hxy h2⟩)

theorem mem_setDedup {x : String} {l : List String} : x ∈ setDedup l ↔ x ∈ l := by
  rw [setDedup, mem_setDedupAux]
  simp

theorem setDedupAux_nodup : ∀ (l seen : List String), (setDedupAux seen l).Nodup := by
  intro l
  induction l with
  | nil => intro seen; simp [setDedupAux]
  | cons y ys ih =>
    intro seen
    by_cases hy : y ∈ seen
    · rw [setDedupAux, if_pos hy]; exact ih seen
    · rw [setDedupAux, if_neg hy]
      refine List.nodup_cons.mpr ⟨fun hmem => ?_, ih (y :: seen)⟩
      exact ((mem_setDedupAux y ys (y :: seen)).mp hmem).2 (List.mem_cons_self _ _)

theorem setDedup_nodup (l : List String) : (setDedup l).Nodup :=
  setDedupAux_nodup l []

theorem mem_jsSortStrings {x : String} {l : List String} :
    x ∈ jsSortStrings l ↔ x ∈ l :=
  (List.perm_insertionSort _ l).mem_iff

theorem mem_partiesOf {c : String} {l : List PoliticianRecord} :
    c ∈ partiesOf l ↔ c ≠ "" ∧ c ∈ l.map (·.groupe_sigle) := by
  rw [partiesOf, mem_jsSortStrings, List.mem_filter, mem_setDedup]
  simp [and_comm]

theorem partiesOf_nodup (l : List PoliticianRecord) : (partiesOf l).Nodup :=
  (List.perm_insertionSort _ _).symm.nodup ((setDedup_nodup _).filter _)

theorem lexLe_total : ∀ xs ys : List Char, lexLe xs ys = true ∨ lexLe ys xs = true := by
  intro xs
  induction xs with
  | nil => intro ys; left; rfl
  | cons x xs ih =>
    intro ys
    cases ys with
    | nil => right; rfl
    | cons y ys =>
      by_cases h1 : x.toNat < y.toNat
      · left; simp [lexLe, h1]
      · by_cases h2 : y.toNat < x.toNat
        · right; simp [lexLe, h2]
        · rcases ih ys with h | h
          · left; simp [lexLe, h1, h2, h]
          · right; simp [lexLe, h1, h2, h]

theorem lexLe_trans : ∀ xs ys zs : List Char,
    lexLe xs ys = true → lexLe ys zs = true → lexLe xs zs = true := by
  intro xs
  induction xs with
  | nil => intro ys zs _ _; rfl
  | cons x xs ih =>
    intro ys zs h1 h2
    cases ys with
    | nil => simp [lexLe] at h1
    | cons y ys =>
      cases zs with
      | nil => simp [lexLe] at h2
      | cons z zs =>
        by_cases hxy : x.toNat < y.toNat
        · by_cases hyz : y.toNat < z.toNat
          · simp [lexLe, show x.toNat < z.toNat by omega]
          · by_cases hzy : z.toNat < y.toNat
            · simp [lexLe, hyz, hzy] at h2
            · simp [lexLe, show x.toNat < z.toNat by omega]
        · by_cases hyx : y.toNat < x.toNat
          · simp [lexLe, hxy, hyx] at h1
          · simp only [lexLe, if_neg hxy, if_neg hyx] at h1
            by_cases hyz : y.toNat < z.toNat
            · simp [lexLe, show x.toNat < z.toNat by omega]
            · by_cases hzy : z.toNat < y.toNat
              · simp [lexLe, hyz, hzy] at h2
              · simp only [lexLe, if_neg hyz, if_neg hzy] at h2
                simp only [lexLe, if_neg (show ¬ x.toNat < z.toNat by omega),
                  if_neg (show ¬ z.toNat < x.toNat by omega)]
                exact ih ys zs h1 h2

theorem partiesOf_sorted (l : List PoliticianRecord) :
    (partiesOf l).Sorted jsStrLe :=
  @List.sorted_insertionSort String jsStrLe jsStrLeDec
    ⟨fun a b => lexLe_total a.data b.data⟩
    ⟨fun a b c => lexLe_trans a.data b.data c.data⟩ _

-- ==========================================================
-- Helper lemmas: removing the current candidate
-- ==========================================================

theorem count_eraseIdx_self {α : Type} [DecidableEq α] (l : List α) (i : Nat) (a : α)
    (h : l[i]? = some a) :
    List.count a (l.eraseIdx i) + 1 = List.count a l := by
  obtain ⟨hi, hval⟩ := List.getElem?_eq_some.mp h
  rw [List.eraseIdx_eq_take_drop_succ]
  conv_rhs => rw [← List.take_append_drop i l, ← List.getElem_cons_drop l i hi]
  rw [List.count_append, List.count_append, List.count_cons, hval]
  simp
  omega

-- ==========================================================
-- Helper lemmas: field accounting for each operation
-- ==========================================================

theorem nextPolitician_parties (rand : (n : Nat) → Fin (n + 1)) (u : GameState) :
    (nextPolitician rand u).parties = u.parties := by
  rw [nextPolitician]; split <;> rfl

theorem nextPolitician_score (rand : (n : Nat) → Fin (n + 1)) (u : GameState) :
    (nextPolitician rand u).score = u.score := by
  rw [nextPolitician]; split <;> rfl

theorem nextPolitician_total (rand : (n : Nat) → Fin (n + 1)) (u : GameState) :
    (nextPolitician rand u).total = u.total := by
  rw [nextPolitician]; split <;> rfl

theorem nextPolitician_streak (rand : (n : Nat) → Fin (n + 1)) (u : GameState) :
    (nextPolitician rand u).streak = u.streak := by
  rw [nextPolitician]; split <;> rfl

theorem nextPolitician_best (rand : (n : Nat) → Fin (n + 1)) (u : GameState) :
    (nextPolitician rand u).bestStreak = u.bestStreak := by
  rw [nextPolitician]; split <;> rfl

theorem nextPolitician_deputes (rand : (n : Nat) → Fin (n + 1)) (u : GameState) :
    (nextPolitician rand u).deputes = u.deputes := by
  rw [nextPolitician]; split <;> rfl

theorem nextPolitician_senateurs (rand : (n : Nat) → Fin (n + 1)) (u : GameState) :
    (nextPolitician rand u).senateurs = u.senateurs := by
  rw [nextPolitician]; split <;> rfl

theorem nextPolitician_storage (rand : (n : Nat) → Fin (n + 1)) (u : GameState) :
    (nextPolitician rand u).storage = u.storage := by
  rw [nextPolitician]; split <;> rfl

theorem nextPolitician_pool_perm (rand : (n : Nat) → Fin (n + 1)) (u : GameState) :
    (nextPolitician rand u).pool.Perm u.pool := by
  rw [nextPolitician]
  split
  · exact .refl _
  · split
    · simpa using shuffle_perm rand u.pool
    · simp

theorem nextPolitician_pool_of_zero (rand : (n : Nat) → Fin (n + 1)) (u : GameState)
    (h : u.currentIndex = 0) : (nextPolitician rand u).pool = u.pool := by
  rw [nextPolitician]
  split
  · rfl
  · rename_i hne
    rw [if_neg (by omega)]

theorem setMode_fields (m : String) (rand : (n : Nat) → Fin (n + 1)) (s : GameState)
    (base : List PoliticianRecord)
    (hbase : base = if m == "deputes" then s.deputes
      else if m == "senateurs" then s.senateurs
      else s.deputes ++ s.senateurs) :
    (setMode m rand s).pool = shuffle rand base ∧
    (setMode m rand s).parties = partiesOf base ∧
    (setMode m rand s).score = 0 ∧
    (setMode m rand s).total = 0 ∧
    (setMode m rand s).streak = 0 ∧
    (setMode m rand s).bestStreak = s.bestStreak ∧
    (setMode m rand s).deputes = s.deputes ∧
    (setMode m rand s).senateurs = s.senateurs ∧
    (setMode m rand s).storage = s.storage := by
  subst hbase
  rw [setMode]
  exact ⟨nextPolitician_pool_of_zero rand _ rfl, nextPolitician_parties rand _,
    nextPolitician_score rand _, nextPolitician_total rand _, nextPolitician_streak rand _,
    nextPolitician_best rand _, nextPolitician_deputes rand _, nextPolitician_senateurs rand _,
    nextPolitician_storage rand _⟩

theorem handleGuess_ok (s : GameState) (pol : PoliticianRecord) (g : String)
    (hans : s.answered = false) (hget : s.pool[s.currentIndex]? = some pol) :
    handleGuess g s = .ok
      { s with
        answered := true
        total := s.total + 1
        score := if g == pol.groupe_sigle then s.score + 1 else s.score
        streak := if g == pol.groupe_sigle then s.streak + 1 else 0
        bestStreak := if g == pol.groupe_sigle ∧ jsGt ((s.streak : Int) + 1) s.bestStreak
          then some ((s.streak : Int) + 1) else s.bestStreak
        storage := if g == pol.groupe_sigle ∧ jsGt ((s.streak : Int) + 1) s.bestStreak
          then some (toString (s.streak + 1)) else s.storage
        lastReveal := some ⟨g == pol.groupe_sigle, pol.nom_complet,
          (getPartyConfig s.pool pol.groupe_sigle).name ++ " (" ++ pol.groupe_sigle ++ ")"⟩
        currentIndex := s.currentIndex + 1 } := by
  by_cases hc : g == pol.groupe_sigle <;>
    by_cases hb : jsGt ((s.streak : Int) + 1) s.bestStreak <;>
      simp [handleGuess, hans, hget, hc, hb]

theorem handleGuess_answered (g : String) (s : GameState) (h : s.answered = true) :
    handleGuess g s = .ok s := by
  simp [handleGuess, h]

theorem handleGuess_err (g : String) (s : GameState) (hans : s.answered = false)
    (hg : s.pool[s.currentIndex]? = none) :
    handleGuess g s = .error { s with answered := true, total := s.total + 1 } := by
  simp [handleGuess, hans, hg]

theorem handleGuess_collections (g : String) (s : GameState) :
    (unwrapG (handleGuess g s)).pool = s.pool ∧
    (unwrapG (handleGuess g s)).deputes = s.deputes ∧
    (unwrapG (handleGuess g s)).senateurs = s.senateurs := by
  by_cases ha : s.answered = true
  · rw [handleGuess_answered g s ha]; exact ⟨rfl, rfl, rfl⟩
  · have hans : s.answered = false := by simpa using ha
    rcases hg : s.pool[s.currentIndex]? with _ | pol
    · rw [handleGuess_err g s hans hg]; exact ⟨rfl, rfl, rfl⟩
    · rw [handleGuess_ok s pol g hans hg]; exact ⟨rfl, rfl, rfl⟩

theorem photoFail_best (rand : (n : Nat) → Fin (n + 1)) (s : GameState) :
    (photoFail rand s).bestStreak = s.bestStreak := by
  rw [photoFail]
  split
  · rfl
  · rw [nextPolitician_best]

theorem photoFail_streak (rand : (n : Nat) → Fin (n + 1)) (s : GameState) :
    (photoFail rand s).streak = s.streak := by
  rw [photoFail]
  split
  · rfl
  · rw [nextPolitician_streak]

theorem photoFail_deputes (rand : (n : Nat) → Fin (n + 1)) (s : GameState) :
    (photoFail rand s).deputes = s.deputes := by
  rw [photoFail]
  split
  · rfl
  · rw [nextPolitician_deputes]

theorem photoFail_senateurs (rand : (n : Nat) → Fin (n + 1)) (s : GameState) :
    (photoFail rand s).senateurs = s.senateurs := by
  rw [photoFail]
  split
  · rfl
  · rw [nextPolitician_senateurs]

theorem photoFail_pool_sub (rand : (n : Nat) → Fin (n + 1)) (s : GameState)
    (r : PoliticianRecord) (hr : r ∈ (photoFail rand s).pool) : r ∈ s.pool := by
  rw [photoFail] at hr
  split at hr
  · exact List.mem_of_mem_eraseIdx hr
  · have := (nextPolitician_pool_perm rand _).mem_iff.mp hr
    exact List.mem_of_mem_eraseIdx this

-- ==========================================================
-- Helper lemmas: invariants along a whole event trace
-- ==========================================================

theorem photosOk_step (s : GameState) (op : Op) (h : photosOk s) : photosOk (step s op) := by
  obtain ⟨hd, hsen, hp⟩ := h
  cases op with
  | guess g =>
    obtain ⟨e1, e2, e3⟩ := handleGuess_collections g s
    rw [step]
    exact ⟨e2 ▸ hd, e3 ▸ hsen, e1 ▸ hp⟩
  | next rand =>
    rw [step]
    refine ⟨nextPolitician_deputes rand s ▸ hd, nextPolitician_senateurs rand s ▸ hsen, ?_⟩
    intro r hr
    exact hp r ((nextPolitician_pool_perm rand s).mem_iff.mp hr)
  | mode m rand =>
    obtain ⟨hpool, -, -, -, -, -, hdep, hsen2, -⟩ := setMode_fields m rand s _ rfl
    rw [step]
    refine ⟨hdep ▸ hd, hsen2 ▸ hsen, ?_⟩
    intro r hr
    rw [hpool] at hr
    have hr2 := mem_shuffle.mp hr
    split at hr2
    · exact hd r hr2
    · split at hr2
      · exact hsen r hr2
      · rcases List.mem_append.mp hr2 with h2 | h2
        · exact hd r h2
        · exact hsen r h2
  | fail rand =>
    rw [step]
    exact ⟨photoFail_deputes rand s ▸ hd, photoFail_senateurs rand s ▸ hsen,
      fun r hr => hp r (photoFail_pool_sub rand s r hr)⟩

theorem photosOk_runOps (ops : List Op) (s : GameState) (h : photosOk s) :
    photosOk (runOps s ops) := by
  induction ops generalizing s with
  | nil => exact h
  | cons op rest ih =>
    rw [runOps, List.foldl_cons]
    exact ih (step s op) (photosOk_step s op h)

theorem step_best (s : GameState) (op : Op) (b : Int)
    (hb : s.bestStreak = some b) (hs : (s.streak : Int) ≤ b) :
    (step s op).bestStreak = some (max b ((step s op).streak : Int)) := by
  have hb0 : (0 : Int) ≤ b := le_trans (Int.natCast_nonneg s.streak) hs
  cases op with
  | next rand =>
    rw [step, nextPolitician_best, nextPolitician_streak, hb, max_eq_left hs]
  | mode m rand =>
    obtain ⟨-, -, -, -, hstreak, hbest, -, -, -⟩ := setMode_fields m rand s _ rfl
    rw [step, hstreak, hbest, hb]
    simp [max_eq_left hb0]
  | fail rand =>
    rw [step, photoFail_best, photoFail_streak, hb, max_eq_left hs]
  | guess g =>
    by_cases ha : s.answered = true
    · rw [step, handleGuess_answered g s ha, unwrapG, hb, max_eq_left hs]
    · have hans : s.answered = false := by simpa using ha
      rcases hg : s.pool[s.currentIndex]? with _ | pol
      · rw [step, handleGuess_err g s hans hg, unwrapG, hb]
        simpa using (max_eq_left hs).symm
      · rw [step, handleGuess_ok s pol g hans hg, unwrapG]
        by_cases hc : (g == pol.groupe_sigle) = true
        · by_cases hj : jsGt ((s.streak : Int) + 1) s.bestStreak = true
          · have hlt : b < (s.streak : Int) + 1 := by
              rw [hb] at hj; simpa [jsGt] using hj
            simp only [hc, hj, true_and, if_true]
            push_cast
            rw [max_eq_right (le_of_lt hlt)]
          · have hge : (s.streak : Int) + 1 ≤ b := by
              rw [hb] at hj; simp [jsGt] at hj; omega
            simp only [hc, true_and]
            rw [if_neg hj, hb]
            push_cast
            rw [max_eq_left hge]
        · simp only [hc, false_and, if_false, hb]
          simp [max_eq_left hb0]

theorem runOps_best (ops : List Op) (s : GameState) (b : Int)
    (hb : s.bestStreak = some b) (hs : (s.streak : Int) ≤ b) :
    (runOps s ops).bestStreak =
      some (max b (((observedStreaks s ops).foldr max 0 : Nat) : Int)) := by
  induction ops generalizing s b with
  | nil =>
    have hb0 : (0 : Int) ≤ b := le_trans (Int.natCast_nonneg s.streak) hs
    rw [runOps, List.foldl_nil, hb, observedStreaks]
    simp [max_eq_left hb0]
  | cons op rest ih =>
    have h1 := step_best s op b hb hs
    have h2 : ((step s op).streak : Int) ≤ max b ((step s op).streak : Int) :=
      le_max_right _ _
    have h3 := ih (step s op) (max b ((step s op).streak : Int)) h1 h2
    rw [runOps, List.foldl_cons, ← runOps, h3, observedStreaks, List.foldr_cons]
    congr 1
    push_cast [Nat.cast_max]
    exact max_assoc _ _ _

-- ==========================================================
-- Helper lemmas: parseInt on well-formed digit strings
-- ==========================================================

theorem digit_not_ws (c : Char) (h : c.isDigit = true) : jsWhitespace c = false := by
  by_contra hne
  have hw : jsWhitespace c = true := by revert hne; cases jsWhitespace c <;> simp
  simp only [jsWhitespace, Bool.or_eq_true, beq_iff_eq] at hw
  rcases hw with ((rfl | rfl) | rfl) | rfl <;> exact absurd h (by decide)

theorem digit_ne_dash (c : Char) (h : c.isDigit = true) : c ≠ '-' := by
  rintro rfl; exact absurd h (by decide)

theorem digit_ne_plus (c : Char) (h : c.isDigit = true) : c ≠ '+' := by
  rintro rfl; exact absurd h (by decide)

theorem digitsVal_foldl_nonneg :
    ∀ (ds : List Char) (a : Int), 0 ≤ a → (∀ c ∈ ds, c.isDigit = true) →
      0 ≤ ds.foldl (fun a c => a * 10 + ((c.toNat : Int) - 48)) a := by
  intro ds
  induction ds with
  | nil => intro a ha _; simpa using ha
  | cons c cs ih =>
    intro a ha hall
    rw [List.foldl_cons]
    refine ih _ ?_ (fun x hx => hall x (List.mem_cons_of_mem _ hx))
    have h48 : 48 ≤ c.toNat := by
      have hd := hall c (List.mem_cons_self _ _)
      simp [Char.isDigit] at hd
      exact hd.1
    omega

theorem digitsVal_nonneg (ds : List Char) (h : ∀ c ∈ ds, c.isDigit = true) :
    0 ≤ digitsVal ds :=
  digitsVal_foldl_nonneg ds 0 le_rfl h

theorem parseInt10_digits (v : String) (hne : v ≠ "")
    (hd : ∀ c ∈ v.data, c.isDigit = true) :
    parseInt10 v = some (digitsVal v.data) ∧ 0 ≤ digitsVal v.data := by
  have hdata : v.data ≠ [] := fun hnil => hne (by
    have : v = "" := by
      cases v with
      | mk d => simp_all
    exact this)
  obtain ⟨c, cs, hv⟩ := List.exists_cons_of_ne_nil hdata
  have hc : c.isDigit = true := hd c (hv ▸ List.mem_cons_self _ _)
  refine ⟨?_, digitsVal_nonneg _ hd⟩
  have e1 : v.data.dropWhile jsWhitespace = c :: cs := by
    rw [hv, List.dropWhile_cons, digit_not_ws c hc]
    simp
  have hd1 : c ≠ '-' := digit_ne_dash c hc
  have hd2 : c ≠ '+' := digit_ne_plus c hc
  have e3 : List.takeWhile Char.isDigit (c :: cs) = c :: cs :=
    List.takeWhile_eq_self_iff.mpr (fun x hx => hd x (hv ▸ hx))
  simp only [parseInt10, e1, List.head?_cons, Option.some.injEq]
  have e4 : (if c = '-' ∨ c = '+' then (c :: cs).tail else c :: cs) = c :: cs :=
    if_neg (by rintro (h | h) <;> [exact hd1 h; exact hd2 h])
  rw [if_neg hd1, e4, e3]
  rw [show (c :: cs).isEmpty = false from rfl]
  simp [hv]

-- ==========================================================
-- Helper lemmas: the generated hue is reduced modulo 360
-- ==========================================================

theorem jsMod_natAbs_lt (a : Int) : (jsMod a 360).natAbs < 360 := by
  rw [jsMod]
  split
  · have h1 : 0 ≤ (-a) % 360 := Int.emod_nonneg _ (by omega)
    have h2 : (-a) % 360 < 360 := Int.emod_lt_of_pos _ (by omega)
    omega
  · have h1 : 0 ≤ a % 360 := Int.emod_nonneg _ (by omega)
    have h2 : a % 360 < 360 := Int.emod_lt_of_pos _ (by omega)
    omega

theorem autoHue_lt (s : String) : autoHue s < 360 :=
  jsMod_natAbs_lt (jsHash s)

-- ==========================================================
-- Claim C1
-- ==========================================================

/-- C1 counterexample: on a state that is not yet answered, a guess
changes the cursor — `handleGuess` ends with `currentIndex++`, so the
cursor does not keep its pre-call value as the claim asserts. -/
theorem polidleC1cx :
    stateSOC.answered = false ∧ stateSOC.currentIndex = 0 ∧
    (handleGuess "SOC" stateSOC).toOption.map (fun t => t.currentIndex) = some 1 :=
  ⟨rfl, rfl, rfl⟩

/-- C1 (amended): Guess Handling increments the cursor by exactly one
whenever the state is unanswered and a current candidate exists, while
Turn Advancement never increments the cursor — it either keeps it or
wraps it to zero. -/
theorem polidleC1 :
    (∀ (s : GameState) (g : String) (pol : PoliticianRecord),
        s.answered = false → s.pool[s.currentIndex]? = some pol →
        ∃ t, handleGuess g s = .ok t ∧ t.currentIndex = s.currentIndex + 1) ∧
    (∀ (rand : (n : Nat) → Fin (n + 1)) (s : GameState),
        (nextPolitician rand s).currentIndex = s.currentIndex ∨
        (nextPolitician rand s).currentIndex = 0) := by
  constructor
  · intro s g pol hans hget
    exact ⟨_, handleGuess_ok s pol g hans hget, rfl⟩
  · intro rand s
    rw [nextPolitician]
    split
    · left; rfl
    · by_cases h : s.pool.length ≤ s.currentIndex
      · right; simp [h]
      · left; simp [h]

/-- C1 witness: the amended statement applied to the concrete fixture. -/
theorem polidleC1witness :
    (∃ t, handleGuess "SOC" stateSOC = .ok t ∧
      t.currentIndex = stateSOC.currentIndex + 1) ∧
    ((nextPolitician idRand stateSOC).currentIndex = stateSOC.currentIndex ∨
      (nextPolitician idRand stateSOC).currentIndex = 0) :=
  ⟨polidleC1.1 stateSOC "SOC" recSOC rfl rfl, polidleC1.2 idRand stateSOC⟩

-- ==========================================================
-- Claim C3
-- ==========================================================

/-- C3: on an unanswered state with a current candidate, a guess marks
the state answered, increments the total, and leaves the pool alone; on
a match it increments score and streak and raises the best streak (and
the persisted copy) exactly when the new streak exceeds it; on a
mismatch it zeroes the streak, leaves score, best streak and storage
alone, and the reveal names the candidate's group, not the guess. -/
theorem polidleC3 (s : GameState) (pol : PoliticianRecord) (g : String)
    (hans : s.answered = false) (hget : s.pool[s.currentIndex]? = some pol) :
    ∃ t, handleGuess g s = .ok t ∧ t.answered = true ∧ t.total = s.total + 1 ∧
      t.pool = s.pool ∧
      (g = pol.groupe_sigle →
        t.score = s.score + 1 ∧ t.streak = s.streak + 1 ∧
        (∀ b : Int, s.bestStreak = some b →
          t.bestStreak = some (max b ((s.streak : Int) + 1)) ∧
          (b < (s.streak : Int) + 1 → t.storage = some (toString (s.streak + 1))) ∧
          (¬ b < (s.streak : Int) + 1 → t.storage = s.storage))) ∧
      (g ≠ pol.groupe_sigle →
        t.score = s.score ∧ t.streak = 0 ∧ t.bestStreak = s.bestStreak ∧
        t.storage = s.storage ∧
        t.lastReveal = some ⟨false, pol.nom_complet,
          (getPartyConfig s.pool pol.groupe_sigle).name ++ " (" ++
            pol.groupe_sigle ++ ")"⟩) := by
  refine ⟨_, handleGuess_ok s pol g hans hget, rfl, rfl, rfl, ?_, ?_⟩
  · intro hcm
    have hc : (g == pol.groupe_sigle) = true := beq_iff_eq.mpr hcm
    refine ⟨by simp [hc], by simp [hc], ?_⟩
    intro b hb
    by_cases hj : jsGt ((s.streak : Int) + 1) s.bestStreak = true
    · have hlt : b < (s.streak : Int) + 1 := by
        rw [hb] at hj; simpa [jsGt] using hj
      refine ⟨?_, fun _ => by simp [hc, hj], fun hn => absurd hlt hn⟩
      simp only [hc, hj, true_and, if_true]
      rw [max_eq_right (le_of_lt hlt)]
    · have hge : (s.streak : Int) + 1 ≤ b := by
        rw [hb] at hj; simp [jsGt] at hj; omega
      have hnlt : ¬ b < (s.streak : Int) + 1 := by omega
      refine ⟨?_, fun hltc => absurd hltc hnlt, fun _ => by simp [hc, hj]⟩
      simp only [hc, true_and]
      rw [if_neg hj, hb, max_eq_left hge]
  · intro hcm
    have hc : (g == pol.groupe_sigle) = false := by
      simpa [beq_iff_eq] using hcm
    exact ⟨by simp [hc], by simp [hc], by simp [hc], by simp [hc], by simp [hc]⟩

/-- C3 witness: a wrong guess LR against the SOC candidate of the
fixture state. -/
theorem polidleC3witness :
    ∃ t, handleGuess "LR" stateSOC = .ok t ∧ t.answered = true ∧
      t.total = stateSOC.total + 1 ∧ t.pool = stateSOC.pool ∧
      ("LR" = recSOC.groupe_sigle →
        t.score = stateSOC.score + 1 ∧ t.streak = stateSOC.streak + 1 ∧
        (∀ b : Int, stateSOC.bestStreak = some b →
          t.bestStreak = some (max b ((stateSOC.streak : Int) + 1)) ∧
          (b < (stateSOC.streak : Int) + 1 →
            t.storage = some (toString (stateSOC.streak + 1))) ∧
          (¬ b < (stateSOC.streak : Int) + 1 → t.storage = stateSOC.storage))) ∧
      ("LR" ≠ recSOC.groupe_sigle →
        t.score = stateSOC.score ∧ t.streak = 0 ∧
        t.bestStreak = stateSOC.bestStreak ∧ t.storage = stateSOC.storage ∧
        t.lastReveal = some ⟨false, recSOC.nom_complet,
          (getPartyConfig stateSOC.pool recSOC.groupe_sigle).name ++ " (" ++
            recSOC.groupe_sigle ++ ")"⟩) :=
  polidleC3 stateSOC recSOC "LR" rfl rfl

-- ==========================================================
-- Claim C4
-- ==========================================================

/-- C4: once the current candidate is answered, a further guess with
any group code is a perfect no-op: the returned state is the input
state, every field included. -/
theorem polidleC4 (s : GameState) (g : String) (h : s.answered = true) :
    handleGuess g s = .ok s :=
  handleGuess_answered g s h

/-- C4 witness: a second guess against the answered fixture state. -/
theorem polidleC4witness : handleGuess "LR" stateAnswered = .ok stateAnswered :=
  polidleC4 stateAnswered "LR" rfl

-- ==========================================================
-- Claim C2
-- ==========================================================

/-- C2 counterexample: a record with a photo but an empty group sigle
survives initialization and sits in the play pool, so the pool
invariant "every record has a non-empty groupCode" fails — the load
filter only checks the photo field. -/
theorem polidleC2cx :
    (initState (.ok [recNoGroup]) (.ok []) none idRand).map
      (fun st => st.pool.all (fun r => !(r.groupe_sigle == ""))) = some false ∧
    (recNoGroup.photo == "") = false :=
  ⟨rfl, rfl⟩

/-- C2 (amended): when both resources load on the primary path, every
record in the play pool has a non-empty photo, and this photo half of
the invariant persists through every later operation; the groupCode
half does not hold (records with an empty sigle stay in the pool and
are only omitted from the party list), and the per-resource fallback
path does not filter photos at all. -/
theorem polidleC2 (d sen : List PoliticianRecord) (stored : Option String)
    (rand : (n : Nat) → Fin (n + 1)) (ops : List Op) (st : GameState)
    (hinit : initState (.ok d) (.ok sen) stored rand = some st) :
    ∀ r ∈ (runOps st ops).pool, r.photo ≠ "" := by
  have hfilter : ∀ (l : List PoliticianRecord) (r : PoliticianRecord),
      r ∈ l.filter (fun p => !(p.photo == "")) → r.photo ≠ "" := by
    intro l r hr
    have := (List.mem_filter.mp hr).2
    simpa using this
  rw [initState] at hinit
  split at hinit
  · exact absurd hinit (by simp)
  · have hst : st = setMode "both" rand
        { deputes := (loadData (.ok d) (.ok sen)).1,
          senateurs := (loadData (.ok d) (.ok sen)).2, pool := [], currentIndex := 0,
          score := 0, total := 0, streak := 0, bestStreak := readBest stored,
          mode := "both", answered := false, parties := [], storage := stored,
          lastReveal := none } := by
      cases hinit
      rfl
    have hbase : photosOk
        { deputes := (loadData (.ok d) (.ok sen)).1,
          senateurs := (loadData (.ok d) (.ok sen)).2, pool := ([] : List PoliticianRecord),
          currentIndex := 0, score := 0, total := 0, streak := 0,
          bestStreak := readBest stored, mode := "both", answered := false,
          parties := [], storage := stored, lastReveal := none } := by
      refine ⟨?_, ?_, ?_⟩
      · intro r hr
        exact hfilter d r hr
      · intro r hr
        exact hfilter sen r hr
      · intro r hr
        simp at hr
    have hsm : photosOk st := by
      rw [hst]
      exact photosOk_step _ (Op.mode "both" rand) hbase
    exact (photosOk_runOps ops st hsm).2.2

/-- C2 witness: the amended photo invariant evaluated on a concrete
primary-path load. -/
theorem polidleC2witness : recSOC.photo ≠ "" :=
  polidleC2 [recSOC] [] none idRand [] _ rfl recSOC (by decide)

-- ==========================================================
-- Claim C5
-- ==========================================================

/-- C5: a filter change rebuilds the pool as a permutation of the
selected chamber collection(s) (their concatenation for "both"),
recomputes the party list as the sorted duplicate-free list of the
non-empty sigles present, resets score, total and streak to zero and
preserves the best streak; on the three-record RN/EPR/RN scenario the
party list comes out as EPR, RN. -/
theorem polidleC5 :
    (∀ (s : GameState) (m : String) (rand : (n : Nat) → Fin (n + 1)),
      (setMode m rand s).pool.Perm
        (if m == "deputes" then s.deputes
         else if m == "senateurs" then s.senateurs
         else s.deputes ++ s.senateurs) ∧
      (setMode m rand s).parties.Sorted jsStrLe ∧
      (setMode m rand s).parties.Nodup ∧
      (∀ c, c ∈ (setMode m rand s).parties ↔ c ≠ "" ∧
        c ∈ (if m == "deputes" then s.deputes
             else if m == "senateurs" then s.senateurs
             else s.deputes ++ s.senateurs).map (·.groupe_sigle)) ∧
      (setMode m rand s).score = 0 ∧
      (setMode m rand s).total = 0 ∧
      (setMode m rand s).streak = 0 ∧
      (setMode m rand s).bestStreak = s.bestStreak) ∧
    (setMode "both" idRand stateScenario).parties = ["EPR", "RN"] := by
  constructor
  · intro s m rand
    obtain ⟨hpool, hparties, hscore, htotal, hstreak, hbest, -, -, -⟩ :=
      setMode_fields m rand s _ rfl
    refine ⟨?_, ?_, ?_, ?_, hscore, htotal, hstreak, hbest⟩
    · rw [hpool]
      exact shuffle_perm rand _
    · rw [hparties]
      exact partiesOf_sorted _
    · rw [hparties]
      exact partiesOf_nodup _
    · intro c
      rw [hparties]
      exact mem_partiesOf
  · decide

-- ==========================================================
-- Claim C6
-- ==========================================================

theorem nextPolitician_no_wrap (rand : (n : Nat) → Fin (n + 1)) (u : GameState)
    (h : u.currentIndex < u.pool.length) :
    nextPolitician rand u = { u with answered := false, lastReveal := none } := by
  rw [nextPolitician, if_neg (by omega), if_neg (by omega)]

/-- C6: when the presentation layer reports a photo failure for the
current candidate, that candidate is spliced out of the pool (one
occurrence removed, so a unique record never reappears in the
session), and if the pool is still non-empty the engine has advanced
by itself: the state is unanswered again and the cursor points at a
valid next candidate, so a further failure can repeat the process. -/
theorem polidleC6 (s : GameState) (rand : (n : Nat) → Fin (n + 1))
    (pol : PoliticianRecord) (hget : s.pool[s.currentIndex]? = some pol) :
    (photoFail rand s).pool = s.pool.eraseIdx s.currentIndex ∧
    (photoFail rand s).pool.length + 1 = s.pool.length ∧
    List.count pol (photoFail rand s).pool + 1 = List.count pol s.pool ∧
    ((photoFail rand s).pool.length ≠ 0 →
      (photoFail rand s).answered = false ∧
      (photoFail rand s).currentIndex =
        (if (photoFail rand s).pool.length ≤ s.currentIndex then 0
         else s.currentIndex) ∧
      (photoFail rand s).currentIndex < (photoFail rand s).pool.length) := by
  obtain ⟨hi, -⟩ := List.getElem?_eq_some.mp hget
  have hlen : (s.pool.eraseIdx s.currentIndex).length + 1 = s.pool.length := by
    rw [List.length_eraseIdx, if_pos hi]
    omega
  by_cases hne : (s.pool.eraseIdx s.currentIndex).length = 0
  · have hpf : photoFail rand s = { s with pool := s.pool.eraseIdx s.currentIndex } := by
      rw [photoFail, if_pos hne]
    refine ⟨by rw [hpf], by rw [hpf]; exact hlen,
      by rw [hpf]; exact count_eraseIdx_self _ _ _ hget, ?_⟩
    intro hne0
    rw [hpf] at hne0
    exact (hne0 hne).elim
  · have hidx : (if (s.pool.eraseIdx s.currentIndex).length ≤ s.currentIndex then 0
        else s.currentIndex) < (s.pool.eraseIdx s.currentIndex).length := by
      by_cases hc : (s.pool.eraseIdx s.currentIndex).length ≤ s.currentIndex <;>
        simp [hc] <;> omega
    have hpf : photoFail rand s =
        { s with pool := s.pool.eraseIdx s.currentIndex,
                 currentIndex := if (s.pool.eraseIdx s.currentIndex).length ≤ s.currentIndex
                   then 0 else s.currentIndex,
                 answered := false, lastReveal := none } := by
      rw [photoFail, if_neg hne, nextPolitician_no_wrap rand _ hidx]
    refine ⟨by rw [hpf], by rw [hpf]; exact hlen,
      by rw [hpf]; exact count_eraseIdx_self _ _ _ hget, ?_⟩
    intro _
    refine ⟨by rw [hpf], by rw [hpf], by rw [hpf]; exact hidx⟩

/-- C6 witness: a photo failure on the first of two pool records. -/
theorem polidleC6witness :
    (photoFail idRand stateSOC).pool = stateSOC.pool.eraseIdx stateSOC.currentIndex ∧
    (photoFail idRand stateSOC).pool.length + 1 = stateSOC.pool.length ∧
    List.count recSOC (photoFail idRand stateSOC).pool + 1 =
      List.count recSOC stateSOC.pool ∧
    ((photoFail idRand stateSOC).pool.length ≠ 0 →
      (photoFail idRand stateSOC).answered = false ∧
      (photoFail idRand stateSOC).currentIndex =
        (if (photoFail idRand stateSOC).pool.length ≤ stateSOC.currentIndex then 0
         else stateSOC.currentIndex) ∧
      (photoFail idRand stateSOC).currentIndex <
        (photoFail idRand stateSOC).pool.length) :=
  polidleC6 stateSOC idRand recSOC rfl

-- ==========================================================
-- Claim C7
-- ==========================================================

/-- C7 counterexample: a corrupt stored value with no leading number
parses to NaN (modelled `none`), not to 0, and a stored negative
number string yields a negative value — both contradict the claim that
corrupt values default to 0 and that a non-negative integer is the
only other possible result. -/
theorem polidleC7cx :
    readBest (some "abc") = none ∧ readBest (some "abc") ≠ some 0 ∧
    readBest (some "-3") = some (-3) :=
  ⟨rfl, by decide, rfl⟩

/-- C7 (amended): the startup read is a total function (it never
throws); a missing or empty stored value yields 0, and any non-empty
all-digit stored value — the only shape the game itself ever writes —
yields exactly the non-negative decimal value of those digits; but a
corrupt value with no leading base-10 integer yields NaN rather than
0, and a stored negative number string yields that negative value. -/
theorem polidleC7 :
    readBest none = some 0 ∧ readBest (some "") = some 0 ∧
    (∀ v : String, v ≠ "" → (∀ c ∈ v.data, c.isDigit = true) →
      readBest (some v) = some (digitsVal v.data) ∧ 0 ≤ digitsVal v.data) := by
  refine ⟨rfl, rfl, ?_⟩
  intro v hne hd
  have hv : (v == "") = false := by
    simpa using hne
  obtain ⟨hp, hnn⟩ := parseInt10_digits v hne hd
  refine ⟨?_, hnn⟩
  rw [readBest]
  simp only [hv, Bool.false_eq_true, if_false]
  exact hp

/-- C7 witness: the amended statement applied to the digit string 7,
whose decimal value is pinned to the literal 7. -/
theorem polidleC7witness :
    (readBest (some "7") = some (digitsVal "7".data) ∧ 0 ≤ digitsVal "7".data) ∧
    digitsVal "7".data = 7 :=
  ⟨polidleC7.2.2 "7" (by decide) (by decide), rfl⟩

-- ==========================================================
-- Claim C8
-- ==========================================================

/-- C8 counterexample: restoring a stored best of 5 yields a session
whose bestStreak is 5 while no streak of the current lifetime was ever
observed (the trace is empty and the current streak is 0), so
bestStreak does not equal the maximum currentStreak observed in that
lifetime. -/
theorem polidleC8cx :
    (initState (.ok [recSOC]) (.ok []) (some "5") idRand).map
      (fun st => (st.bestStreak, st.streak,
        (observedStreaks st []).foldr max 0)) = some (some 5, 0, 0) ∧
    some (5 : Int) ≠ some ((0 : Nat) : Int) :=
  ⟨rfl, by decide⟩

/-- C8 (amended): along any event trace of one lifetime, starting from
a state whose bestStreak holds a number at least the current streak,
bestStreak never decreases and always equals the maximum of its
restored starting value and the largest currentStreak observed after
any event of the trace. -/
theorem polidleC8 (s : GameState) (ops : List Op) (b : Int)
    (hb : s.bestStreak = some b) (hs : (s.streak : Int) ≤ b) :
    (runOps s ops).bestStreak =
      some (max b (((observedStreaks s ops).foldr max 0 : Nat) : Int)) ∧
    b ≤ max b (((observedStreaks s ops).foldr max 0 : Nat) : Int) :=
  ⟨runOps_best ops s b hb hs, le_max_left _ _⟩

/-- C8 witness: the amended statement on a one-guess trace from the
fixture state. -/
theorem polidleC8witness :
    (runOps stateSOC [Op.guess "SOC"]).bestStreak =
      some (max 0 (((observedStreaks stateSOC [Op.guess "SOC"]).foldr max 0 : Nat) : Int)) ∧
    (0 : Int) ≤ max 0 (((observedStreaks stateSOC [Op.guess "SOC"]).foldr max 0 : Nat) : Int) :=
  polidleC8 stateSOC [Op.guess "SOC"] 0 rfl (by decide)

-- ==========================================================
-- Claim C9
-- ==========================================================

/-- C9: party-registry resolution returns registry entries verbatim;
for unknown codes the display name comes from the first matching pool
record's group name when that is non-empty and otherwise is the code
itself; the color never depends on the pool — it is the deterministic
hash-generated hue-based color, with the hue strictly below 360. -/
theorem polidleC9 :
    (∀ (pool : List PoliticianRecord) (sigle : String) (cfg : PartyConfig),
        PARTY_COLORS.lookup sigle = some cfg → getPartyConfig pool sigle = cfg) ∧
    (∀ (pool : List PoliticianRecord) (sigle : String) (f : PoliticianRecord),
        PARTY_COLORS.lookup sigle = none →
        pool.find? (fun p => p.groupe_sigle == sigle) = some f →
        f.groupe_nom ≠ "" → (getPartyConfig pool sigle).name = f.groupe_nom) ∧
    (∀ (pool : List PoliticianRecord) (sigle : String) (f : PoliticianRecord),
        PARTY_COLORS.lookup sigle = none →
        pool.find? (fun p => p.groupe_sigle == sigle) = some f →
        f.groupe_nom = "" → (getPartyConfig pool sigle).name = sigle) ∧
    (∀ (pool : List PoliticianRecord) (sigle : String),
        PARTY_COLORS.lookup sigle = none →
        pool.find? (fun p => p.groupe_sigle == sigle) = none →
        (getPartyConfig pool sigle).name = sigle) ∧
    (∀ (p1 p2 : List PoliticianRecord) (sigle : String),
        (getPartyConfig p1 sigle).color = (getPartyConfig p2 sigle).color) ∧
    (∀ (pool : List PoliticianRecord) (sigle : String),
        PARTY_COLORS.lookup sigle = none →
        (getPartyConfig pool sigle).color = autoColor sigle ∧ autoHue sigle < 360) := by
  refine ⟨?_, ?_, ?_, ?_, ?_, ?_⟩
  · intro pool sigle cfg hl
    simp [getPartyConfig, hl]
  · intro pool sigle f hl hf hnom
    simp [getPartyConfig, hl, hf, hnom]
  · intro pool sigle f hl hf hnom
    simp [getPartyConfig, hl, hf, hnom]
  · intro pool sigle hl hf
    simp [getPartyConfig, hl, hf]
  · intro p1 p2 sigle
    rcases hl : PARTY_COLORS.lookup sigle with _ | cfg
    · rcases h1 : p1.find? (fun p => p.groupe_sigle == sigle) with _ | f1 <;>
        rcases h2 : p2.find? (fun p => p.groupe_sigle == sigle) with _ | f2 <;>
          simp [getPartyConfig, hl, h1, h2]
    · simp [getPartyConfig, hl]
  · intro pool sigle hl
    rcases hf : pool.find? (fun p => p.groupe_sigle == sigle) with _ | f <;>
      exact ⟨by simp [getPartyConfig, hl, hf], autoHue_lt sigle⟩

/-- C9 witness: the registry hit for SOC and the generated color for an
unknown sigle. -/
theorem polidleC9witness :
    getPartyConfig [] "SOC" = ⟨"Socialistes et apparentés", "#FF6B81"⟩ ∧
    (getPartyConfig [] "ZZZ").color = autoColor "ZZZ" ∧ autoHue "ZZZ" < 360 :=
  ⟨polidleC9.1 [] "SOC" _ rfl, polidleC9.2.2.2.2.2 [] "ZZZ" rfl⟩

-- ==========================================================
-- Claim C10
-- ==========================================================

/-- C10: the Fisher–Yates shuffle permutes the pool — for every input
and every random draw it yields a list with exactly the same records
and multiplicities — and consequently the reshuffle inside Turn
Advancement leaves the pool a permutation of itself: nothing is added,
dropped or duplicated. -/
theorem polidleC10 :
    (∀ (rand : (n : Nat) → Fin (n + 1)) (l : List PoliticianRecord),
      (shuffle rand l).Perm l) ∧
    (∀ (rand : (n : Nat) → Fin (n + 1)) (s : GameState),
      (nextPolitician rand s).pool.Perm s.pool) :=
  ⟨fun rand l => shuffle_perm rand l, fun rand s => nextPolitician_pool_perm rand s⟩
